import Mathlib

/-!
Verification of the `gob_easing` library (src/gob_easing.hpp): a shallow
embedding in Lean 4 of its arithmetic kernel (`goblib::easing::math`) and its
easing-function catalog (`goblib::easing`), together with theorems settling the
claims of the specification about them.

Modelling conventions:
* The own-math kernel (the `GOBLIB_EASING_USING_OWN_MATH` branch) works on a
  generic floating-point type `T`; it is embedded over `ℚ` with the machine epsilon
  of the type passed explicitly as a parameter `eps` (the source reads it
  from `std::numeric_limits<T>::epsilon()`).  Its convergence loops are
  `constexpr` recursions with no structural termination argument; they are
  embedded with an explicit fuel parameter, the `fuel = 0` case returning the
  current accumulator.  Every theorem about a loop body is stated at `fuel + 1`
  so the fuel cutoff never participates.
* IEEE special values that the kernel branches on explicitly (quiet NaN and the
  two infinities in `sqrt` and in the floating-exponent `pow`) are embedded by
  small inductive types wrapping `ℚ`; the guards of the source are compiled
  case by case (each case is annotated with the source comparison outcomes).
-/

namespace goblib.easing

namespace constants

/-- `constants::pi`: the source instantiates `T{M_PI}`; the platform-math model
idealises it as the exact `π`. -/
noncomputable def pi : ℝ := Real.pi

/-- `constants::half_pi() = pi<T>() * T{0.5}` -/
noncomputable def half_pi : ℝ := pi * 0.5

/-- `constants::pi2() = pi<T>() * T{2.0}` -/
noncomputable def pi2 : ℝ := pi * 2.0

/-- `constants::e() = T{2.71828182845904523536}` (the Euler number literal). -/
def e (α : Type) [DivisionRing α] : α := 2.71828182845904523536

/-- `constants::back_factor() = T{1.70158}` -/
def back_factor (α : Type) [DivisionRing α] : α := 1.70158

/-- `constants::back_factor2() = back_factor<T>() * T{1.525}` -/
def back_factor2 (α : Type) [DivisionRing α] : α := back_factor α * 1.525

/-- `constants::elastic_factor() = pi2<T>() / T{3.0}` -/
noncomputable def elastic_factor : ℝ := pi2 / 3.0

/-- `constants::elastic_factor2() = pi2<T>() / T{4.5}` -/
noncomputable def elastic_factor2 : ℝ := pi2 / 4.5

/-- `constants::bounce_factor() = T{2.75}` -/
def bounce_factor (α : Type) [DivisionRing α] : α := 2.75

/-- `constants::bounce_factor2() = T{7.5625}` -/
def bounce_factor2 (α : Type) [DivisionRing α] : α := 7.5625

end constants

namespace math

/-- `math::abs(x) = x >= 0 ? x : -x` over the rational kernel model. -/
def abs (x : ℚ) : ℚ := if x ≥ 0 then x else -x

/-- `math::equal_fp(x, y) = abs(x - y) <= std::numeric_limits<T>::epsilon()`,
with the epsilon of the type passed explicitly as `eps`. -/
def equal_fp (eps x y : ℚ) : Bool := abs (x - y) ≤ eps

/-- Extended values for `math::sqrt`: quiet NaN, the two infinities, and finite
values (modelled as rationals). -/
inductive FP where
  | nan
  | pinf
  | ninf
  | fin (q : ℚ)

/-- `math::sqrt_impl(x, curr, prev)`:
`equal_fp(curr, prev) ? curr : sqrt_impl(x, 0.5 * (curr + x / curr), curr)`,
with fuel for the unbounded `constexpr` recursion. -/
def sqrt_impl (eps : ℚ) : ℕ → ℚ → ℚ → ℚ → ℚ
  | 0, _, curr, _ => curr
  | fuel + 1, x, curr, prev =>
      if equal_fp eps curr prev then curr
      else sqrt_impl eps fuel x (0.5 * (curr + x / curr)) curr

/-- `math::sqrt(x) = (x >= 0 && x < inf) ? sqrt_impl(x, x, 0) : (x < 0) ? NaN : inf`,
compiled case by case over the extended values:
* finite `q`: `q < inf` always holds, so the guard is `0 ≤ q`;
* `+inf`: `inf >= 0` but not `inf < inf`, and not `inf < 0`, hence `inf`;
* `-inf`: the first guard fails and `-inf < 0`, hence NaN;
* `NaN`: every comparison with NaN is false, hence the final `inf` branch. -/
def sqrt (eps : ℚ) (fuel : ℕ) : FP → FP
  | .fin q => if 0 ≤ q then .fin (sqrt_impl eps fuel q q 0) else .nan
  | .pinf => .pinf
  | .ninf => .nan
  | .nan => .pinf

/-- `math::exp_impl(x, sum, n, i, t)`:
`equal_fp(sum, sum + t/n) ? sum : exp_impl(x, sum + t/n, n * i, i + 1, t * x)`
(`n` of type `T`, `i` of type `int`), with fuel. -/
def exp_impl (eps : ℚ) : ℕ → ℚ → ℚ → ℚ → ℤ → ℚ → ℚ
  | 0, _, sum, _, _, _ => sum
  | fuel + 1, x, sum, n, i, t =>
      if equal_fp eps sum (sum + t / n) then sum
      else exp_impl eps fuel x (sum + t / n) (n * i) (i + 1) (t * x)

/-- `math::exp(x) = exp_impl(x, 1, 1, 2, x)` -/
def exp (eps : ℚ) (fuel : ℕ) (x : ℚ) : ℚ := exp_impl eps fuel x 1 1 2 x

/-- `math::log_iter(x, y) = y + 2 * (x - exp(y)) / (x + exp(y))` -/
def log_iter (eps : ℚ) (efuel : ℕ) (x y : ℚ) : ℚ :=
  y + 2 * (x - exp eps efuel y) / (x + exp eps efuel y)

/-- `math::log(x, y) = equal_fp(y, log_iter(x, y)) ? y : log(x, log_iter(x, y))`,
with fuel for the fixed-point recursion. -/
def log (eps : ℚ) (efuel : ℕ) : ℕ → ℚ → ℚ → ℚ
  | 0, _, y => y
  | lfuel + 1, x, y =>
      if equal_fp eps y (log_iter eps efuel x y) then y
      else log eps efuel lfuel x (log_iter eps efuel x y)

/-- `math::pow(x, y)` for an integral exponent `y`:
`(y == 0) ? 1 : y == 1 ? x : y > 1 ? ((y & 1) ? x * pow(x, y - 1)
 : pow(x, y / 2) * pow(x, y / 2)) : 1 / pow(x, -y)`
(the `y & 1` odd test on `y > 1` is written `y % 2 = 1`). -/
def pow (x : ℚ) (y : ℤ) : ℚ :=
  if y = 0 then 1
  else if y = 1 then x
  else if 1 < y then
    if y % 2 = 1 then x * pow x (y - 1)
    else pow x (y / 2) * pow x (y / 2)
  else 1 / pow x (-y)
termination_by (2 * y).natAbs + (if y < 0 then 1 else 0)
decreasing_by all_goals (split_ifs <;> omega)

/-- Extended exponents for the floating-exponent `math::pow`: the two
infinities the source tests for, and finite values. -/
inductive EV where
  | pinf
  | ninf
  | fin (q : ℚ)

/-- `math::pow(x, y)` for a floating-point exponent `y`:
`(y == inf) ? inf : (y == -inf) ? 0 : exp(log(x, e) * y)`. -/
def powf (eps : ℚ) (efuel lfuel : ℕ) (x : ℚ) : EV → EV
  | .pinf => .pinf
  | .ninf => .fin 0
  | .fin y => .fin (exp eps efuel (log eps efuel lfuel x (constants.e ℚ) * y))

/-- `math::sincos_impl(x, sum, n, i, s, t)`:
`equal_fp(sum, sum + t*s/n) ? sum
 : sincos_impl(x, sum + t*s/n, n*i*(i+1), i+2, -s, t*x*x)`
(`n` of type `T`, `i` and `s` of type `int`), with fuel. -/
def sincos_impl (eps : ℚ) : ℕ → ℚ → ℚ → ℚ → ℤ → ℤ → ℚ → ℚ
  | 0, _, sum, _, _, _, _ => sum
  | fuel + 1, x, sum, n, i, s, t =>
      if equal_fp eps sum (sum + t * s / n) then sum
      else sincos_impl eps fuel x (sum + t * s / n) (n * i * (i + 1)) (i + 2) (-s) (t * x * x)

/-- `math::sin(x) = sincos_impl(x, x, 6, 4, -1, x*x*x)` -/
def sin (eps : ℚ) (fuel : ℕ) (x : ℚ) : ℚ := sincos_impl eps fuel x x 6 4 (-1) (x * x * x)

/-- `math::cos(x) = sincos_impl(x, 1, 2, 3, -1, x*x)` -/
def cos (eps : ℚ) (fuel : ℕ) (x : ℚ) : ℚ := sincos_impl eps fuel x 1 2 3 (-1) (x * x)

/-- `math::equal_fp(x, y) = abs(x - y) <= epsilon` over the real-valued
catalog model, the epsilon of the type passed explicitly as `eps`. -/
def equal_fpR (eps x y : ℝ) : Prop := |x - y| ≤ eps

noncomputable instance (eps x y : ℝ) : Decidable (equal_fpR eps x y) :=
  inferInstanceAs (Decidable (|x - y| ≤ eps))

end math

/-!
The easing catalog, embedded over `ℝ`.  This idealises the platform-math build
(the `#else` branch: `std::sqrt`, `std::pow`, `std::sin`, `std::cos`) as exact
real arithmetic: `Real.sqrt`, `Real.rpow`, `Real.sin`, `Real.cos` and the
exact `π` for `constants::pi`.  The `math::equal_fp`
endpoint guards of the exponential family compare against the machine epsilon, which stays an
explicit parameter `eps` of those three functions.
-/

/-- `linear(t) = t` -/
noncomputable def linear (t : ℝ) : ℝ := t

/-- `inSinusoidal(t) = -cos(t * half_pi) + 1` -/
noncomputable def inSinusoidal (t : ℝ) : ℝ := -Real.cos (t * constants.half_pi) + 1

/-- `outSinusoidal(t) = sin(t * half_pi)` -/
noncomputable def outSinusoidal (t : ℝ) : ℝ := Real.sin (t * constants.half_pi)

/-- `inOutSinusoidal(t) = -0.5 * (cos(t * pi) - 1)` -/
noncomputable def inOutSinusoidal (t : ℝ) : ℝ := -0.5 * (Real.cos (t * constants.pi) - 1)

/-- `inQuadratic(t) = t * t` -/
noncomputable def inQuadratic (t : ℝ) : ℝ := t * t

/-- `outQuadratic(t) = -t * (t - 2)` -/
noncomputable def outQuadratic (t : ℝ) : ℝ := -t * (t - 2.0)

/-- `inOutQuadratic`: `(t*2) < 1 ? 0.5*(t*2)*(t*2)
 : -0.5*(((t*2)-1) * (((t*2)-1)-2) - 1)` -/
noncomputable def inOutQuadratic (t : ℝ) : ℝ :=
  if t * 2 < 1.0 then 0.5 * (t * 2) * (t * 2)
  else -0.5 * ((t * 2 - 1) * ((t * 2 - 1) - 2) - 1)

/-- `inCubic(t) = t * t * t` -/
noncomputable def inCubic (t : ℝ) : ℝ := t * t * t

/-- `outCubic(t) = (t-1)*(t-1)*(t-1) + 1` -/
noncomputable def outCubic (t : ℝ) : ℝ := (t - 1) * (t - 1) * (t - 1) + 1

/-- `inOutCubic`: branch on `(t*2) < 1`. -/
noncomputable def inOutCubic (t : ℝ) : ℝ :=
  if t * 2 < 1 then 0.5 * (t * 2) * (t * 2) * (t * 2)
  else 0.5 * ((t * 2 - 2) * (t * 2 - 2) * (t * 2 - 2) + 2)

/-- `inQuartic(t) = t * t * t * t` -/
noncomputable def inQuartic (t : ℝ) : ℝ := t * t * t * t

/-- `outQuartic(t) = -((t-1)*(t-1)*(t-1)*(t-1) - 1)` -/
noncomputable def outQuartic (t : ℝ) : ℝ := -((t - 1) * (t - 1) * (t - 1) * (t - 1) - 1)

/-- `inOutQuartic`: branch on `(t*2) < 1`. -/
noncomputable def inOutQuartic (t : ℝ) : ℝ :=
  if t * 2 < 1 then 0.5 * (t * 2) * (t * 2) * (t * 2) * (t * 2)
  else -0.5 * ((t * 2 - 2) * (t * 2 - 2) * (t * 2 - 2) * (t * 2 - 2) - 2)

/-- `inQuintic(t) = t * t * t * t * t` -/
noncomputable def inQuintic (t : ℝ) : ℝ := t * t * t * t * t

/-- `outQuintic(t) = (t-1)*(t-1)*(t-1)*(t-1)*(t-1) + 1` -/
noncomputable def outQuintic (t : ℝ) : ℝ :=
  (t - 1) * (t - 1) * (t - 1) * (t - 1) * (t - 1) + 1

/-- `inOutQuintic`: branch on `(t*2) < 1`. -/
noncomputable def inOutQuintic (t : ℝ) : ℝ :=
  if t * 2 < 1 then 0.5 * (t * 2) * (t * 2) * (t * 2) * (t * 2) * (t * 2)
  else 0.5 * ((t * 2 - 2) * (t * 2 - 2) * (t * 2 - 2) * (t * 2 - 2) * (t * 2 - 2) + 2)

/-- `inExponential(t) = equal_fp(t, 0) ? 0 : pow(2, 10 * (t - 1))` -/
noncomputable def inExponential (eps t : ℝ) : ℝ :=
  if math.equal_fpR eps t 0 then 0 else (2 : ℝ) ^ (10 * (t - 1))

/-- `outExponential(t) = equal_fp(t, 1) ? 1 : -pow(2, -10 * t) + 1` -/
noncomputable def outExponential (eps t : ℝ) : ℝ :=
  if math.equal_fpR eps t 1 then 1 else -(2 : ℝ) ^ (-10 * t) + 1

/-- `inOutExponential`: `equal_fp(t, 0) ? 0 : equal_fp(t, 1) ? 1 :` then
branch on `(t*2) < 1` between the scaled power halves. -/
noncomputable def inOutExponential (eps t : ℝ) : ℝ :=
  if math.equal_fpR eps t 0 then 0
  else if math.equal_fpR eps t 1 then 1
  else if t * 2 < 1 then 0.5 * (2 : ℝ) ^ (10 * (t * 2 - 1))
  else 0.5 * (-(2 : ℝ) ^ (-10 * (t * 2 - 1)) + 2)

/-- `inCircular(t) = -(sqrt(1 - t*t) - 1)` -/
noncomputable def inCircular (t : ℝ) : ℝ := -(Real.sqrt (1 - t * t) - 1)

/-- `outCircular(t) = sqrt(1 - (t-1)*(t-1))` -/
noncomputable def outCircular (t : ℝ) : ℝ := Real.sqrt (1 - (t - 1) * (t - 1))

/-- `inOutCircular`: branch on `(t*2) < 1`. -/
noncomputable def inOutCircular (t : ℝ) : ℝ :=
  if t * 2 < 1 then -0.5 * (Real.sqrt (1 - (t * 2) * (t * 2)) - 1)
  else 0.5 * (Real.sqrt (1 - (t * 2 - 2) * (t * 2 - 2)) + 1)

/-- `inBack(t) = t * t * ((back_factor + 1) * t - back_factor)` -/
noncomputable def inBack (t : ℝ) : ℝ :=
  t * t * ((constants.back_factor ℝ + 1) * t - constants.back_factor ℝ)

/-- `outBack(t) = (t-1)*(t-1)*((back_factor + 1)*(t-1) + back_factor) + 1` -/
noncomputable def outBack (t : ℝ) : ℝ :=
  (t - 1) * (t - 1) * ((constants.back_factor ℝ + 1) * (t - 1) + constants.back_factor ℝ) + 1

/-- `inOutBack`: branch on `(t*2) < 1`, using `back_factor2`. -/
noncomputable def inOutBack (t : ℝ) : ℝ :=
  if t * 2 < 1 then
    0.5 * ((t * 2) * (t * 2) * ((constants.back_factor2 ℝ + 1) * (t * 2) - constants.back_factor2 ℝ))
  else
    0.5 * ((t * 2 - 2) * (t * 2 - 2) * ((constants.back_factor2 ℝ + 1) * (t * 2 - 2) + constants.back_factor2 ℝ) + 2)

/-- `inElastic(t) = (t <= 0) ? 0 : (t >= 1) ? 1
 : -pow(2, 10*t - 10) * sin((t*10 - 10.75) * elastic_factor)` -/
noncomputable def inElastic (t : ℝ) : ℝ :=
  if t ≤ 0 then 0
  else if t ≥ 1 then 1
  else -(2 : ℝ) ^ (10 * t - 10) * Real.sin ((t * 10 - 10.75) * constants.elastic_factor)

/-- `outElastic(t) = (t <= 0) ? 0 : (t >= 1) ? 1
 : pow(2, -10*t) * sin((t*10 - 0.75) * elastic_factor) + 1` -/
noncomputable def outElastic (t : ℝ) : ℝ :=
  if t ≤ 0 then 0
  else if t ≥ 1 then 1
  else (2 : ℝ) ^ (-10 * t) * Real.sin ((t * 10 - 0.75) * constants.elastic_factor) + 1

/-- `inOutElastic(t) = (t <= 0) ? 0 : (t >= 1) ? 1 :` then branch on
`t < 0.5` between the two damped oscillation halves (`elastic_factor2`). -/
noncomputable def inOutElastic (t : ℝ) : ℝ :=
  if t ≤ 0 then 0
  else if t ≥ 1 then 1
  else if t < 0.5 then
    -0.5 * ((2 : ℝ) ^ (20 * t - 10) * Real.sin ((20 * t - 11.125) * constants.elastic_factor2))
  else
    0.5 * ((2 : ℝ) ^ (-20 * t + 10) * Real.sin ((20 * t - 11.125) * constants.elastic_factor2)) + 1

/-- `outBounce`: four piecewise-quadratic segments split at `1/2.75`, `2/2.75`
and `2.5/2.75` (`bounce_factor = 2.75`, `bounce_factor2 = 7.5625`). -/
noncomputable def outBounce (t : ℝ) : ℝ :=
  if t < 1 / constants.bounce_factor ℝ then constants.bounce_factor2 ℝ * t * t
  else if t < 2 / constants.bounce_factor ℝ then
    constants.bounce_factor2 ℝ * (t - 1.5 / constants.bounce_factor ℝ) *
      (t - 1.5 / constants.bounce_factor ℝ) + 0.75
  else if t < 2.5 / constants.bounce_factor ℝ then
    constants.bounce_factor2 ℝ * (t - 2.25 / constants.bounce_factor ℝ) *
      (t - 2.25 / constants.bounce_factor ℝ) + 0.9375
  else
    constants.bounce_factor2 ℝ * (t - 2.625 / constants.bounce_factor ℝ) *
      (t - 2.625 / constants.bounce_factor ℝ) + 0.984375

/-- `inBounce(t) = 1 - outBounce(1 - t)` -/
noncomputable def inBounce (t : ℝ) : ℝ := 1 - outBounce (1 - t)

/-- `inOutBounce(t) = t < 0.5 ? (1 - outBounce(1 - 2*t)) * 0.5
 : (1 + outBounce(2*t - 1)) * 0.5` -/
noncomputable def inOutBounce (t : ℝ) : ℝ :=
  if t < 0.5 then (1 - outBounce (1 - 2 * t)) * 0.5
  else (1 + outBounce (2 * t - 1)) * 0.5

end goblib.easing

namespace goblib.easing

/-- `math.pow` agrees with the mathematical power on natural exponents. -/
lemma pow_natCast (x : ℚ) : ∀ n : ℕ, math.pow x (n : ℤ) = x ^ n := by
  intro n
  induction n using Nat.strong_induction_on with
  | _ n ih =>
    match n with
    | 0 => rw [math.pow]; simp
    | 1 => rw [math.pow]; simp
    | (m + 2) =>
      rw [math.pow.eq_def]
      rw [if_neg (by omega), if_neg (by omega), if_pos (by omega)]
      by_cases hpar : ((m : ℤ) + 2) % 2 = 1
      · rw [if_pos (by push_cast; omega)]
        have h1 : ((m + 2 : ℕ) : ℤ) - 1 = ((m + 1 : ℕ) : ℤ) := by push_cast; ring
        rw [h1, ih (m + 1) (by omega)]
        rw [pow_succ]
        ring
      · rw [if_neg (by push_cast at hpar ⊢; omega)]
        have h2 : ((m + 2 : ℕ) : ℤ) / 2 = (((m + 2) / 2 : ℕ) : ℤ) := by omega
        rw [h2, ih ((m + 2) / 2) (by omega)]
        rw [← pow_add]
        congr 1
        omega

end goblib.easing

namespace goblib.easing

lemma linear_endpoints : linear (0 : ℝ) = 0 ∧ linear (1 : ℝ) = 1 := ⟨rfl, rfl⟩

lemma inSinusoidal_endpoints : inSinusoidal 0 = 0 ∧ inSinusoidal 1 = 1 := by
  constructor
  · simp [inSinusoidal]
  · simp only [inSinusoidal, constants.half_pi, constants.pi, one_mul]
    rw [show Real.pi * 0.5 = Real.pi / 2 by ring, Real.cos_pi_div_two]
    norm_num

lemma outSinusoidal_endpoints : outSinusoidal 0 = 0 ∧ outSinusoidal 1 = 1 := by
  constructor
  · simp [outSinusoidal]
  · simp only [outSinusoidal, constants.half_pi, constants.pi, one_mul]
    rw [show Real.pi * 0.5 = Real.pi / 2 by ring, Real.sin_pi_div_two]

lemma inOutSinusoidal_endpoints : inOutSinusoidal 0 = 0 ∧ inOutSinusoidal 1 = 1 := by
  constructor
  · simp [inOutSinusoidal]
  · simp only [inOutSinusoidal, constants.pi, one_mul]
    rw [Real.cos_pi]
    norm_num

lemma inQuadratic_endpoints : inQuadratic 0 = 0 ∧ inQuadratic 1 = 1 := by
  constructor <;> norm_num [inQuadratic]

lemma outQuadratic_endpoints : outQuadratic 0 = 0 ∧ outQuadratic 1 = 1 := by
  constructor <;> norm_num [outQuadratic]

lemma inOutQuadratic_endpoints : inOutQuadratic 0 = 0 ∧ inOutQuadratic 1 = 1 := by
  constructor <;> norm_num [inOutQuadratic]

lemma inCubic_endpoints : inCubic 0 = 0 ∧ inCubic 1 = 1 := by
  constructor <;> norm_num [inCubic]

lemma outCubic_endpoints : outCubic 0 = 0 ∧ outCubic 1 = 1 := by
  constructor <;> norm_num [outCubic]

lemma inOutCubic_endpoints : inOutCubic 0 = 0 ∧ inOutCubic 1 = 1 := by
  constructor <;> norm_num [inOutCubic]

lemma inQuartic_endpoints : inQuartic 0 = 0 ∧ inQuartic 1 = 1 := by
  constructor <;> norm_num [inQuartic]

lemma outQuartic_endpoints : outQuartic 0 = 0 ∧ outQuartic 1 = 1 := by
  constructor <;> norm_num [outQuartic]

lemma inOutQuartic_endpoints : inOutQuartic 0 = 0 ∧ inOutQuartic 1 = 1 := by
  constructor <;> norm_num [inOutQuartic]

lemma inQuintic_endpoints : inQuintic 0 = 0 ∧ inQuintic 1 = 1 := by
  constructor <;> norm_num [inQuintic]

lemma outQuintic_endpoints : outQuintic 0 = 0 ∧ outQuintic 1 = 1 := by
  constructor <;> norm_num [outQuintic]

lemma inOutQuintic_endpoints : inOutQuintic 0 = 0 ∧ inOutQuintic 1 = 1 := by
  constructor <;> norm_num [inOutQuintic]

lemma inCircular_endpoints : inCircular 0 = 0 ∧ inCircular 1 = 1 := by
  constructor <;> norm_num [inCircular, Real.sqrt_one, Real.sqrt_zero]

lemma outCircular_endpoints : outCircular 0 = 0 ∧ outCircular 1 = 1 := by
  constructor <;> norm_num [outCircular, Real.sqrt_one, Real.sqrt_zero]

lemma inOutCircular_endpoints : inOutCircular 0 = 0 ∧ inOutCircular 1 = 1 := by
  constructor <;> norm_num [inOutCircular, Real.sqrt_one, Real.sqrt_zero]

lemma inBack_endpoints : inBack 0 = 0 ∧ inBack 1 = 1 := by
  constructor <;> norm_num [inBack, constants.back_factor]

lemma outBack_endpoints : outBack 0 = 0 ∧ outBack 1 = 1 := by
  constructor <;> norm_num [outBack, constants.back_factor]

lemma inOutBack_endpoints : inOutBack 0 = 0 ∧ inOutBack 1 = 1 := by
  constructor <;>
    norm_num [inOutBack, constants.back_factor2, constants.back_factor]

lemma inElastic_endpoints : inElastic 0 = 0 ∧ inElastic 1 = 1 := by
  constructor <;> norm_num [inElastic]

lemma outElastic_endpoints : outElastic 0 = 0 ∧ outElastic 1 = 1 := by
  constructor <;> norm_num [outElastic]

lemma inOutElastic_endpoints : inOutElastic 0 = 0 ∧ inOutElastic 1 = 1 := by
  constructor <;> norm_num [inOutElastic]

lemma outBounce_endpoints : outBounce 0 = 0 ∧ outBounce 1 = 1 := by
  constructor <;>
    norm_num [outBounce, constants.bounce_factor, constants.bounce_factor2]

lemma inBounce_endpoints : inBounce 0 = 0 ∧ inBounce 1 = 1 := by
  constructor
  · simp only [inBounce]
    rw [show (1 : ℝ) - 0 = 1 by norm_num, outBounce_endpoints.2]
    norm_num
  · simp only [inBounce]
    rw [show (1 : ℝ) - 1 = 0 by norm_num, outBounce_endpoints.1]
    norm_num

lemma inOutBounce_endpoints : inOutBounce 0 = 0 ∧ inOutBounce 1 = 1 := by
  constructor
  · simp only [inOutBounce]
    rw [if_pos (by norm_num : (0 : ℝ) < 0.5),
      show (1 : ℝ) - 2 * 0 = 1 by norm_num, outBounce_endpoints.2]
    norm_num
  · simp only [inOutBounce]
    rw [if_neg (by norm_num : ¬ (1 : ℝ) < 0.5),
      show (2 : ℝ) * 1 - 1 = 1 by norm_num, outBounce_endpoints.2]
    norm_num

end goblib.easing

open goblib.easing in
/-- C1: every catalog easing function — linear and the in/out/in-out variants
of sinusoidal, quadratic, cubic, quartic, quintic, exponential, circular,
back, elastic and bounce, the overshooting families included — maps `0` to
exactly `0` and `1` to exactly `1` (the exponential family for any machine
epsilon `0 ≤ eps < 1`). -/
theorem c1_catalog_endpoints (eps : ℝ) (h0 : 0 ≤ eps) (h1 : eps < 1) :
    (linear (0 : ℝ) = 0 ∧ linear (1 : ℝ) = 1) ∧
    (inSinusoidal 0 = 0 ∧ inSinusoidal 1 = 1) ∧
    (outSinusoidal 0 = 0 ∧ outSinusoidal 1 = 1) ∧
    (inOutSinusoidal 0 = 0 ∧ inOutSinusoidal 1 = 1) ∧
    (inQuadratic 0 = 0 ∧ inQuadratic 1 = 1) ∧
    (outQuadratic 0 = 0 ∧ outQuadratic 1 = 1) ∧
    (inOutQuadratic 0 = 0 ∧ inOutQuadratic 1 = 1) ∧
    (inCubic 0 = 0 ∧ inCubic 1 = 1) ∧
    (outCubic 0 = 0 ∧ outCubic 1 = 1) ∧
    (inOutCubic 0 = 0 ∧ inOutCubic 1 = 1) ∧
    (inQuartic 0 = 0 ∧ inQuartic 1 = 1) ∧
    (outQuartic 0 = 0 ∧ outQuartic 1 = 1) ∧
    (inOutQuartic 0 = 0 ∧ inOutQuartic 1 = 1) ∧
    (inQuintic 0 = 0 ∧ inQuintic 1 = 1) ∧
    (outQuintic 0 = 0 ∧ outQuintic 1 = 1) ∧
    (inOutQuintic 0 = 0 ∧ inOutQuintic 1 = 1) ∧
    (inExponential eps 0 = 0 ∧ inExponential eps 1 = 1) ∧
    (outExponential eps 0 = 0 ∧ outExponential eps 1 = 1) ∧
    (inOutExponential eps 0 = 0 ∧ inOutExponential eps 1 = 1) ∧
    (inCircular 0 = 0 ∧ inCircular 1 = 1) ∧
    (outCircular 0 = 0 ∧ outCircular 1 = 1) ∧
    (inOutCircular 0 = 0 ∧ inOutCircular 1 = 1) ∧
    (inBack 0 = 0 ∧ inBack 1 = 1) ∧
    (outBack 0 = 0 ∧ outBack 1 = 1) ∧
    (inOutBack 0 = 0 ∧ inOutBack 1 = 1) ∧
    (inElastic 0 = 0 ∧ inElastic 1 = 1) ∧
    (outElastic 0 = 0 ∧ outElastic 1 = 1) ∧
    (inOutElastic 0 = 0 ∧ inOutElastic 1 = 1) ∧
    (outBounce 0 = 0 ∧ outBounce 1 = 1) ∧
    (inBounce 0 = 0 ∧ inBounce 1 = 1) ∧
    (inOutBounce 0 = 0 ∧ inOutBounce 1 = 1) := by
  have he00 : math.equal_fpR eps 0 0 := by simp [math.equal_fpR, h0]
  have he11 : math.equal_fpR eps 1 1 := by simp [math.equal_fpR, h0]
  have hn10 : ¬ math.equal_fpR eps 1 0 := by
    simp only [math.equal_fpR, sub_zero, abs_one]
    linarith
  have hn01 : ¬ math.equal_fpR eps 0 1 := by
    simp only [math.equal_fpR, zero_sub, abs_neg, abs_one]
    linarith
  have hexpIn : inExponential eps 0 = 0 ∧ inExponential eps 1 = 1 := by
    constructor
    · simp only [inExponential]; rw [if_pos he00]
    · simp only [inExponential]; rw [if_neg hn10]; simp
  have hexpOut : outExponential eps 0 = 0 ∧ outExponential eps 1 = 1 := by
    constructor
    · simp only [outExponential]; rw [if_neg hn01]; simp
    · simp only [outExponential]; rw [if_pos he11]
  have hexpInOut : inOutExponential eps 0 = 0 ∧ inOutExponential eps 1 = 1 := by
    constructor
    · simp only [inOutExponential]; rw [if_pos he00]
    · simp only [inOutExponential]; rw [if_neg hn10, if_pos he11]
  exact ⟨linear_endpoints, inSinusoidal_endpoints, outSinusoidal_endpoints,
    inOutSinusoidal_endpoints, inQuadratic_endpoints, outQuadratic_endpoints,
    inOutQuadratic_endpoints, inCubic_endpoints, outCubic_endpoints,
    inOutCubic_endpoints, inQuartic_endpoints, outQuartic_endpoints,
    inOutQuartic_endpoints, inQuintic_endpoints, outQuintic_endpoints,
    inOutQuintic_endpoints, hexpIn, hexpOut, hexpInOut,
    inCircular_endpoints, outCircular_endpoints, inOutCircular_endpoints,
    inBack_endpoints, outBack_endpoints, inOutBack_endpoints,
    inElastic_endpoints, outElastic_endpoints, inOutElastic_endpoints,
    outBounce_endpoints, inBounce_endpoints, inOutBounce_endpoints⟩

open goblib.easing in
/-- C1 witness: the endpoint equalities at the concrete machine epsilon
`1/2`. -/
theorem c1_catalog_endpoints_witness :
    (0 : ℝ) ≤ 1/2 ∧ (1/2 : ℝ) < 1 ∧
    (linear (0 : ℝ) = 0 ∧ linear (1 : ℝ) = 1) ∧
    (inExponential (1/2) 0 = 0 ∧ inExponential (1/2) 1 = 1) :=
  ⟨by norm_num, by norm_num,
   (c1_catalog_endpoints (1/2) (by norm_num) (by norm_num)).1,
   (c1_catalog_endpoints (1/2) (by norm_num) (by norm_num)).2.2.2.2.2.2.2.2.2.2.2.2.2.2.2.2.1⟩

open goblib.easing in
/-- C3: the own-math square root iterates Newton–Raphson `y ↦ 0.5 * (y + x/y)`
seeded at `y₀ = x` (with previous iterate `0`), stopping as soon as two
successive iterates are approximately equal (within machine epsilon) and
returning the last iterate; for negative arguments (finite or `-inf`) it
returns NaN, and for `+inf` it returns `+inf`. -/
theorem c3_sqrt_newton (eps : ℚ) (fuel : ℕ) :
    (∀ x curr prev : ℚ,
        math.sqrt_impl eps (fuel + 1) x curr prev =
          if math.equal_fp eps curr prev then curr
          else math.sqrt_impl eps fuel x (0.5 * (curr + x / curr)) curr) ∧
    (∀ q : ℚ, 0 ≤ q →
        math.sqrt eps fuel (.fin q) = .fin (math.sqrt_impl eps fuel q q 0)) ∧
    (∀ q : ℚ, q < 0 → math.sqrt eps fuel (.fin q) = .nan) ∧
    math.sqrt eps fuel .ninf = .nan ∧
    math.sqrt eps fuel .pinf = .pinf := by
  refine ⟨fun x curr prev => rfl, fun q hq => ?_, fun q hq => ?_, rfl, rfl⟩
  · simp [math.sqrt, hq]
  · simp [math.sqrt, not_le.mpr hq]

open goblib.easing in
/-- C3 witness: the boundary cases of `math.sqrt` at the concrete inputs `4`
and `-1` (epsilon `1/100`, fuel `20`). -/
theorem c3_sqrt_newton_witness :
    ((0 : ℚ) ≤ 4 ∧
      math.sqrt (1/100) 20 (.fin 4) = .fin (math.sqrt_impl (1/100) 20 4 4 0)) ∧
    ((-1 : ℚ) < 0 ∧ math.sqrt (1/100) 20 (.fin (-1)) = .nan) :=
  ⟨⟨by norm_num, (c3_sqrt_newton (1/100) 20).2.1 4 (by norm_num)⟩,
   ⟨by norm_num, (c3_sqrt_newton (1/100) 20).2.2.1 (-1) (by norm_num)⟩⟩

open goblib.easing in
/-- C4: the floating-exponent own-math `pow` sends exponent `+inf` to `+inf`
and exponent `-inf` to `0`, independently of the base, and every finite
exponent `y` to `exp(log(x, e) * y)` with the Euler number seeding the
logarithm. -/
theorem c4_powf_boundaries (eps : ℚ) (efuel lfuel : ℕ) (x : ℚ) :
    math.powf eps efuel lfuel x .pinf = .pinf ∧
    math.powf eps efuel lfuel x .ninf = .fin 0 ∧
    (∀ y : ℚ, math.powf eps efuel lfuel x (.fin y) =
        .fin (math.exp eps efuel (math.log eps efuel lfuel x (constants.e ℚ) * y))) ∧
    (∀ x2 : ℚ,
        math.powf eps efuel lfuel x .pinf = math.powf eps efuel lfuel x2 .pinf ∧
        math.powf eps efuel lfuel x .ninf = math.powf eps efuel lfuel x2 .ninf) :=
  ⟨rfl, rfl, fun _ => rfl, fun _ => ⟨rfl, rfl⟩⟩

open goblib.easing in
/-- C5: the integral-exponent own-math `pow` satisfies exponentiation by
squaring — `pow x 0 = 1`, `pow x 1 = x`, for even `y > 1` it is
`pow x (y/2) * pow x (y/2)`, for odd `y > 1` it is `x * pow x (y-1)`, and for
negative `y` it is `1 / pow x (-y)` — and it equals the mathematical power
`x ^ y` for `y ≥ 0` and its reciprocal for `y < 0`. -/
theorem c5_pow_squaring (x : ℚ) :
    math.pow x 0 = 1 ∧
    math.pow x 1 = x ∧
    (∀ y : ℤ, 1 < y → y % 2 = 0 →
        math.pow x y = math.pow x (y / 2) * math.pow x (y / 2)) ∧
    (∀ y : ℤ, 1 < y → y % 2 = 1 → math.pow x y = x * math.pow x (y - 1)) ∧
    (∀ y : ℤ, y < 0 → math.pow x y = 1 / math.pow x (-y)) ∧
    (∀ y : ℤ, 0 ≤ y → math.pow x y = x ^ y.toNat) ∧
    (∀ y : ℤ, y < 0 → math.pow x y = 1 / x ^ (-y).toNat) := by
  have hnat : ∀ y : ℤ, 0 ≤ y → math.pow x y = x ^ y.toNat := by
    intro y hy
    have h := pow_natCast x y.toNat
    rwa [Int.toNat_of_nonneg hy] at h
  have hneg : ∀ y : ℤ, y < 0 → math.pow x y = 1 / math.pow x (-y) := by
    intro y hy
    rw [math.pow.eq_def]
    rw [if_neg (by omega), if_neg (by omega), if_neg (by omega)]
  refine ⟨by rw [math.pow]; simp, by rw [math.pow]; simp, ?_, ?_, hneg, hnat, ?_⟩
  · intro y h1 h2
    rw [math.pow.eq_def]
    rw [if_neg (by omega), if_neg (by omega), if_pos h1, if_neg (by omega)]
  · intro y h1 h2
    rw [math.pow.eq_def]
    rw [if_neg (by omega), if_neg (by omega), if_pos h1, if_pos h2]
  · intro y hy
    rw [hneg y hy, hnat (-y) (by omega)]

open goblib.easing in
/-- C5 witness: the recursion laws of `math.pow` discharged at the concrete
exponents `4` (even), `5` (odd) and `-2` (negative), base `3`. -/
theorem c5_pow_squaring_witness :
    ((1 : ℤ) < 4 ∧ (4 : ℤ) % 2 = 0 ∧
      math.pow 3 4 = math.pow 3 (4 / 2) * math.pow 3 (4 / 2)) ∧
    ((1 : ℤ) < 5 ∧ (5 : ℤ) % 2 = 1 ∧ math.pow 3 5 = 3 * math.pow 3 (5 - 1)) ∧
    ((-2 : ℤ) < 0 ∧ math.pow 3 (-2) = 1 / (3 : ℚ) ^ ((-(-2) : ℤ)).toNat) :=
  ⟨⟨by norm_num, by decide, (c5_pow_squaring 3).2.2.1 4 (by norm_num) (by decide)⟩,
   ⟨by norm_num, by decide, (c5_pow_squaring 3).2.2.2.1 5 (by norm_num) (by decide)⟩,
   ⟨by norm_num, (c5_pow_squaring 3).2.2.2.2.2.2 (-2) (by norm_num)⟩⟩

namespace goblib.easing

lemma outBounce_mem (t : ℝ) (h0 : 0 ≤ t) (h1 : t ≤ 1) :
    0 ≤ outBounce t ∧ outBounce t ≤ 1 := by
  simp only [outBounce, constants.bounce_factor, constants.bounce_factor2]
  split_ifs with ha hb hc
  · constructor
    · nlinarith [mul_nonneg h0 h0]
    · nlinarith [mul_le_mul (le_of_lt ha) (le_of_lt ha) h0
        (by norm_num : (0 : ℝ) ≤ 1 / 2.75)]
  · constructor
    · nlinarith [mul_self_nonneg (t - 1.5 / 2.75)]
    · nlinarith [mul_nonneg (sub_nonneg.mpr (not_lt.mp ha))
        (le_of_lt (sub_pos.mpr hb))]
  · constructor
    · nlinarith [mul_self_nonneg (t - 2.25 / 2.75)]
    · nlinarith [mul_nonneg (sub_nonneg.mpr (not_lt.mp hb))
        (le_of_lt (sub_pos.mpr hc))]
  · constructor
    · nlinarith [mul_self_nonneg (t - 2.625 / 2.75)]
    · nlinarith [mul_nonneg (sub_nonneg.mpr (not_lt.mp hc)) (sub_nonneg.mpr h1)]

lemma inBounce_mem (t : ℝ) (h0 : 0 ≤ t) (h1 : t ≤ 1) :
    0 ≤ inBounce t ∧ inBounce t ≤ 1 := by
  have h := outBounce_mem (1 - t) (by linarith) (by linarith)
  simp only [inBounce]
  constructor <;> linarith [h.1, h.2]

lemma inOutBounce_mem (t : ℝ) (h0 : 0 ≤ t) (h1 : t ≤ 1) :
    0 ≤ inOutBounce t ∧ inOutBounce t ≤ 1 := by
  simp only [inOutBounce]
  split_ifs with ha
  · have h := outBounce_mem (1 - 2 * t) (by linarith) (by linarith)
    constructor <;> linarith [h.1, h.2]
  · have ha2 := not_lt.mp ha
    have h := outBounce_mem (2 * t - 1) (by linarith) (by linarith)
    constructor <;> linarith [h.1, h.2]

end goblib.easing

open goblib.easing in
/-- C10: for every `t` in `[0, 1]` the bounce family never leaves the unit
range — `outBounce`, `inBounce` and `inOutBounce` all stay in `[0, 1]`, so
bounce, unlike back and elastic, does not overshoot. -/
theorem c10_bounce_range (t : ℝ) (h0 : 0 ≤ t) (h1 : t ≤ 1) :
    (0 ≤ outBounce t ∧ outBounce t ≤ 1) ∧
    (0 ≤ inBounce t ∧ inBounce t ≤ 1) ∧
    (0 ≤ inOutBounce t ∧ inOutBounce t ≤ 1) :=
  ⟨outBounce_mem t h0 h1, inBounce_mem t h0 h1, inOutBounce_mem t h0 h1⟩

open goblib.easing in
/-- C10 witness: the unit-range bounds at the concrete input `t = 1/2`. -/
theorem c10_bounce_range_witness :
    (0 : ℝ) ≤ 1/2 ∧ (1/2 : ℝ) ≤ 1 ∧
    (0 ≤ outBounce (1/2) ∧ outBounce (1/2) ≤ 1) ∧
    (0 ≤ inBounce (1/2) ∧ inBounce (1/2) ≤ 1) ∧
    (0 ≤ inOutBounce (1/2) ∧ inOutBounce (1/2) ≤ 1) :=
  ⟨by norm_num, by norm_num,
   (c10_bounce_range (1/2) (by norm_num) (by norm_num)).1,
   (c10_bounce_range (1/2) (by norm_num) (by norm_num)).2.1,
   (c10_bounce_range (1/2) (by norm_num) (by norm_num)).2.2⟩

open goblib.easing in
/-- C9: own-math sine and cosine share the single alternating-series
accumulator `sincos_impl` (partial sum, factorial denominator, term index,
alternating sign, power-of-`x` term; stopping when the next term
`t * s / n` no longer changes the sum within tolerance), `sin` seeding it
with `(x, 6, 4, -1, x³)` and `cos` with `(1, 2, 3, -1, x²)` — the two differ
only in the starting term. -/
theorem c9_sincos_shared_series (eps : ℚ) (fuel : ℕ) :
    (∀ (x sum n : ℚ) (i s : ℤ) (t : ℚ),
        math.sincos_impl eps (fuel + 1) x sum n i s t =
          if math.equal_fp eps sum (sum + t * s / n) then sum
          else math.sincos_impl eps fuel x (sum + t * s / n)
                 (n * i * (i + 1)) (i + 2) (-s) (t * x * x)) ∧
    (∀ x : ℚ, math.sin eps fuel x = math.sincos_impl eps fuel x x 6 4 (-1) (x * x * x)) ∧
    (∀ x : ℚ, math.cos eps fuel x = math.sincos_impl eps fuel x 1 2 3 (-1) (x * x)) :=
  ⟨fun _ _ _ _ _ _ => rfl, fun _ => rfl, fun _ => rfl⟩

open goblib.easing in
/-- C2: for every input `t`, the reflection symmetry
`outX(t) = 1 - inX(1 - t)` holds for the quadratic, cubic, quartic, quintic
and bounce families, and `inBounce(t)` is defined as `1 - outBounce(1 - t)`. -/
theorem c2_reflection_symmetry (t : ℝ) :
    outQuadratic t = 1 - inQuadratic (1 - t) ∧
    outCubic t = 1 - inCubic (1 - t) ∧
    outQuartic t = 1 - inQuartic (1 - t) ∧
    outQuintic t = 1 - inQuintic (1 - t) ∧
    outBounce t = 1 - inBounce (1 - t) ∧
    inBounce t = 1 - outBounce (1 - t) := by
  refine ⟨?_, ?_, ?_, ?_, ?_, rfl⟩
  · unfold outQuadratic inQuadratic; ring
  · unfold outCubic inCubic; ring
  · unfold outQuartic inQuartic; ring
  · unfold outQuintic inQuintic; ring
  · unfold inBounce
    rw [show (1 : ℝ) - (1 - t) = t by ring]
    ring

open goblib.easing in
/-- C6: each elastic variant returns exactly `0` for `t ≤ 0` and exactly `1`
for `t ≥ 1`, short-circuiting before the oscillation expression. -/
theorem c6_elastic_clamps (t : ℝ) :
    (t ≤ 0 → inElastic t = 0 ∧ outElastic t = 0 ∧ inOutElastic t = 0) ∧
    (1 ≤ t → inElastic t = 1 ∧ outElastic t = 1 ∧ inOutElastic t = 1) := by
  constructor
  · intro h
    refine ⟨?_, ?_, ?_⟩
    · simp only [inElastic]; rw [if_pos h]
    · simp only [outElastic]; rw [if_pos h]
    · simp only [inOutElastic]; rw [if_pos h]
  · intro h
    have h0 : ¬ t ≤ 0 := by linarith
    have h1 : t ≥ 1 := h
    refine ⟨?_, ?_, ?_⟩
    · simp only [inElastic]; rw [if_neg h0, if_pos h1]
    · simp only [outElastic]; rw [if_neg h0, if_pos h1]
    · simp only [inOutElastic]; rw [if_neg h0, if_pos h1]

open goblib.easing in
/-- C6 witness: the clamps at the concrete boundary inputs `t = 0` and
`t = 1`. -/
theorem c6_elastic_clamps_witness :
    ((0 : ℝ) ≤ 0 ∧ inElastic 0 = 0 ∧ outElastic 0 = 0 ∧ inOutElastic 0 = 0) ∧
    ((1 : ℝ) ≤ 1 ∧ inElastic 1 = 1 ∧ outElastic 1 = 1 ∧ inOutElastic 1 = 1) :=
  ⟨⟨le_refl 0, (c6_elastic_clamps 0).1 (le_refl 0)⟩,
   ⟨le_refl 1, (c6_elastic_clamps 1).2 (le_refl 1)⟩⟩

open goblib.easing in
/-- C7: each exponential-family function guards its endpoints with the
equality check of the library (`equal_fp` against `0` resp. `1`) and returns the
endpoint value there instead of evaluating the power expression: at `t = 0`
`inExponential` and `inOutExponential` return `0`, and at `t = 1`
`outExponential` and `inOutExponential` return `1` (for any machine epsilon
`0 ≤ eps < 1`). -/
theorem c7_exponential_endpoint_checks (eps : ℝ) (h0 : 0 ≤ eps) (h1 : eps < 1) :
    inExponential eps 0 = 0 ∧
    outExponential eps 1 = 1 ∧
    inOutExponential eps 0 = 0 ∧
    inOutExponential eps 1 = 1 ∧
    (∀ t, math.equal_fpR eps t 0 → inExponential eps t = 0) ∧
    (∀ t, math.equal_fpR eps t 1 → outExponential eps t = 1) ∧
    (∀ t, math.equal_fpR eps t 0 → inOutExponential eps t = 0) ∧
    (∀ t, ¬ math.equal_fpR eps t 0 → math.equal_fpR eps t 1 →
        inOutExponential eps t = 1) := by
  have he00 : math.equal_fpR eps 0 0 := by simp [math.equal_fpR, h0]
  have he11 : math.equal_fpR eps 1 1 := by simp [math.equal_fpR, h0]
  have hn10 : ¬ math.equal_fpR eps 1 0 := by
    simp only [math.equal_fpR, sub_zero, abs_one]
    linarith
  have gin : ∀ t, math.equal_fpR eps t 0 → inExponential eps t = 0 := by
    intro t h; simp only [inExponential]; rw [if_pos h]
  have gout : ∀ t, math.equal_fpR eps t 1 → outExponential eps t = 1 := by
    intro t h; simp only [outExponential]; rw [if_pos h]
  have ginout0 : ∀ t, math.equal_fpR eps t 0 → inOutExponential eps t = 0 := by
    intro t h; simp only [inOutExponential]; rw [if_pos h]
  have ginout1 : ∀ t, ¬ math.equal_fpR eps t 0 → math.equal_fpR eps t 1 →
      inOutExponential eps t = 1 := by
    intro t hn h; simp only [inOutExponential]; rw [if_neg hn, if_pos h]
  exact ⟨gin 0 he00, gout 1 he11, ginout0 0 he00, ginout1 1 hn10 he11,
    gin, gout, ginout0, ginout1⟩

open goblib.easing in
/-- C7 witness: the endpoint guards at the concrete epsilon `1/2`. -/
theorem c7_exponential_endpoint_checks_witness :
    (0 : ℝ) ≤ 1/2 ∧ (1/2 : ℝ) < 1 ∧
    inExponential (1/2) 0 = 0 ∧ outExponential (1/2) 1 = 1 :=
  ⟨by norm_num, by norm_num,
   (c7_exponential_endpoint_checks (1/2) (by norm_num) (by norm_num)).1,
   (c7_exponential_endpoint_checks (1/2) (by norm_num) (by norm_num)).2.1⟩

open goblib.easing in
/-- C8 counterexample: `back_factor2` (the `inOutBack` constant) is
`1.70158 * 1.525 = 2.5949095`, which is not approximately `2.59814` — it
differs from that value by more than `1/1000`. -/
theorem c8_back_factor2_not_2_59814 :
    ¬ |constants.back_factor2 ℚ - 2.59814| ≤ 1/1000 := by
  have h : constants.back_factor2 ℚ = 2.5949095 := by
    norm_num [constants.back_factor2, constants.back_factor]
  rw [h, abs_of_nonpos (by norm_num)]
  norm_num

open goblib.easing in
/-- C8 (amended): the overshoot constant of the back family used by `inBack` and
`outBack` is exactly `1.70158`, and the `inOutBack` constant equals that base
constant multiplied by `1.525`, approximately `2.59491`. -/
theorem c8_back_constants :
    constants.back_factor ℚ = 1.70158 ∧
    constants.back_factor2 ℚ = constants.back_factor ℚ * 1.525 ∧
    |constants.back_factor2 ℚ - 2.59491| < 1/10000 ∧
    (∀ t : ℝ, inBack t =
        t * t * ((constants.back_factor ℝ + 1) * t - constants.back_factor ℝ)) := by
  have h : constants.back_factor2 ℚ = 2.5949095 := by
    norm_num [constants.back_factor2, constants.back_factor]
  refine ⟨rfl, rfl, ?_, fun _ => rfl⟩
  rw [h, abs_of_nonpos (by norm_num)]
  norm_num
